import Mathlib

/-!
Verification development for the TriScale data-analysis tutorial.

The repository ships the tutorial notebook `tutorial_data-analysis.ipynb`; the
`triscale` module it imports (percentile-bound estimation, independence
testing, KPI and variability-score computation) is not part of the sources, so
those components are modelled from the specification.  The notebook's own code
(`get_metrics` and the solution cells) is embedded directly from the source.

All numeric data is embedded over `ℚ`.  The arithmetic on `Rat` is restored
to its definitional behaviour so that concrete scenarios can be settled by
`decide` (Batteries marks these operations irreducible for elaboration
performance only; proof checking is unaffected).
-/

attribute [local semireducible] Rat.mul Rat.add Rat.inv Rat.sub

namespace TriScale

/-- Modelled from the spec: a pair (low, high) representing the declared
extremal range of a quantity; the spec requires `low < high`. -/
structure Bounds where
  low : ℚ
  high : ℚ
deriving DecidableEq, Repr

/-- Modelled from the spec: the shared shape of KPI and variability-score
definitions: a percentile, a confidence level, both strictly inside (0,100),
and the declared bounds. -/
structure EstimatorSpec where
  percentile : ℚ
  confidence : ℚ
  bounds : Bounds
deriving DecidableEq, Repr

/-- Modelled from the spec: validity of an `EstimatorSpec` — percentile and
confidence strictly inside (0,100) and `bounds.low < bounds.high`. -/
def validSpec (s : EstimatorSpec) : Prop :=
  0 < s.percentile ∧ s.percentile < 100 ∧
  0 < s.confidence ∧ s.confidence < 100 ∧
  s.bounds.low < s.bounds.high

instance (s : EstimatorSpec) : Decidable (validSpec s) := by
  unfold validSpec; infer_instance

/-- Direction of a one-sided confidence bound. -/
inductive Direction where
  | upper
  | lower
deriving DecidableEq, Repr

/-- Modelled from the spec: one term of the binomial mass function,
`C(n,i) * p^i * (1-p)^(n-i)`. -/
def binomTerm (n : ℕ) (p : ℚ) (i : ℕ) : ℚ :=
  (n.choose i : ℚ) * p ^ i * (1 - p) ^ (n - i)

/-- Modelled from the spec: the cumulative binomial probability
`P(Binom(n,p) ≤ j)`, used to locate the order-statistic rank. -/
def binomCdf (n : ℕ) (p : ℚ) (j : ℕ) : ℚ :=
  ∑ i ∈ Finset.range (j + 1), binomTerm n p i

/-- Smallest index `j < m` with `c ≤ f j`, searching from below; `none` when no
index qualifies. -/
def searchRank (f : ℕ → ℚ) (c : ℚ) : ℕ → Option ℕ
  | 0 => none
  | m + 1 =>
    match searchRank f c m with
    | some j => some j
    | none => if c ≤ f m then some m else none

/-- Modelled from the spec: the success probability used by the rank search;
`P/100` for an upper bound, `(100-P)/100` for a lower bound (the symmetric
procedure of §4.1). -/
def boundProb (P : ℚ) : Direction → ℚ
  | Direction.upper => P / 100
  | Direction.lower => (100 - P) / 100

/-- Modelled from the spec (PercentileBoundEstimator, §4.1): sort the sample
ascending, find the smallest 1-indexed rank `k = j+1` whose cumulative binomial
probability reaches `C/100`, and return the corresponding order statistic —
`sorted[j]` for an upper bound, the mirrored `sorted[n-1-j]` for a lower bound
(the reading of "from the low end" consistent with the spec's scenario 1,
where the lower bound on the 25th percentile of 5 samples is the minimum).
Returns `none` (the `Undefined` sentinel) when no rank qualifies. -/
def bound (sample : List ℚ) (P C : ℚ) (dir : Direction) : Option ℚ :=
  let n := sample.length
  let sorted := sample.insertionSort (· ≤ ·)
  (searchRank (binomCdf n (boundProb P dir)) (C / 100) n).bind fun j =>
    match dir with
    | Direction.upper => sorted[j]?
    | Direction.lower => sorted[n - 1 - j]?

/-- Mean of a sample (0 for the empty sample). -/
def sampleMean (x : List ℚ) : ℚ := x.sum / x.length

/-- Sum of squared deviations from `m`. -/
def acDen (x : List ℚ) (m : ℚ) : ℚ := (x.map fun a => (a - m) ^ 2).sum

/-- Lag-`k` autocovariance numerator: sum of products of deviations `k` apart. -/
def acNum (x : List ℚ) (m : ℚ) (k : ℕ) : ℚ :=
  ((x.zip (x.drop k)).map fun ab => (ab.1 - m) * (ab.2 - m)).sum

/-- Modelled from the spec (IndependenceTester, §4.2): the lag-`k` empirical
autocorrelation `r = num/den` lies within the white-noise significance band
`|r| ≤ z/√n` (z = 1.96, the 95% band), expressed without square roots as
`num² · n ≤ z² · den²`; when the denominator vanishes (constant or too-short
sample) the autocorrelation cannot be computed and the lag counts as outside
the band. -/
def acWithin (x : List ℚ) (k : ℕ) : Bool :=
  decide (acDen x (sampleMean x) ≠ 0) &&
  decide (acNum x (sampleMean x) k ^ 2 * (x.length : ℚ)
    ≤ (49 / 25) ^ 2 * acDen x (sampleMean x) ^ 2)

/-- Modelled from the spec (IndependenceTester, §4.2): test autocorrelation at
lags `1..L` with `L = max 1 (n/4)`; pass when the fraction of lags within the
significance band exceeds the acceptance threshold 3/4 ("the large majority").
The declared bounds are accepted for interface compatibility; the band test is
scale-invariant and does not use them.  Samples too short to compute any lag
(fewer than two points) fail. -/
def is_independent (x : List ℚ) (b : Bounds) : Bool :=
  decide (3 * max 1 (x.length / 4)
    < 4 * (((List.range (max 1 (x.length / 4))).map (· + 1)).filter
        fun k => acWithin x k).length)

/-- Modelled from the spec (KPIComputer, §4.4): the convention picking the
side of the one-sided KPI bound from the percentile — lower bound for
percentiles up to 50, upper bound above (matching the tutorial's scenarios). -/
def naturalDirection (P : ℚ) : Direction :=
  if P ≤ 50 then Direction.lower else Direction.upper

/-- Modelled from the spec (KPIComputer, §4.4): run the independence test,
compute the one-sided bound for the requested percentile and confidence, and
return both unmodified. -/
def kpi (series : List ℚ) (spec : EstimatorSpec) : Bool × Option ℚ :=
  (is_independent series spec.bounds,
   bound series spec.percentile spec.confidence (naturalDirection spec.percentile))

/-- Modelled from the spec (VariabilityScoreComputer, §4.5, followed
literally): `upper` is the bound at percentile `100 - P` with direction upper,
`lower` the bound at percentile `P` with direction lower; the absolute score is
`upper - lower` (defined only when both are), the relative score divides it by
the declared range. -/
def variability (sequel : List ℚ) (spec : EstimatorSpec) :
    Bool × Option ℚ × Option ℚ × Option ℚ × Option ℚ :=
  let u := bound sequel (100 - spec.percentile) spec.confidence Direction.upper
  let l := bound sequel spec.percentile spec.confidence Direction.lower
  let a : Option ℚ :=
    match u, l with
    | some uv, some lv => some (uv - lv)
    | _, _ => none
  let r := a.map fun v => v / (spec.bounds.high - spec.bounds.low)
  (is_independent sequel spec.bounds, u, l, a, r)

/-- Modelled from the spec (§7, §9): the public KPI entry point validates the
specification before any computation; an invalid specification is a fatal
parameter error reported immediately, never silently corrected. -/
def analysis_kpi (series : List ℚ) (spec : EstimatorSpec) :
    Except String (Bool × Option ℚ) :=
  if validSpec spec then Except.ok (kpi series spec)
  else Except.error "InvalidParameter"

/-- Modelled from the spec (§7, §9): the public variability entry point with
the same parameter validation. -/
def analysis_variability (sequel : List ℚ) (spec : EstimatorSpec) :
    Except String (Bool × Option ℚ × Option ℚ × Option ℚ × Option ℚ) :=
  if validSpec spec then Except.ok (variability sequel spec)
  else Except.error "InvalidParameter"

/-- Success probability effectively used by the KPI bound for percentile `P`
under the natural direction convention. -/
def natp (P : ℚ) : ℚ := boundProb P (naturalDirection P)

/-- Modelled from the spec: a sample of length `n` is sufficient for `(P,C)`
when the rank search of the natural-direction bound succeeds, i.e. some rank's
cumulative binomial probability reaches `C/100`. -/
def sufficientLen (P C : ℚ) (n : ℕ) : Prop :=
  ∃ j < n, C / 100 ≤ binomCdf n (natp P) j

instance (P C : ℚ) (n : ℕ) : Decidable (sufficientLen P C n) := by
  unfold sufficientLen; infer_instance

/-- Modelled from the spec: `N` is the minimal sufficient sample size for
`(P,C)` — `N` is sufficient and no smaller size is. -/
def IsMinSufficientLen (P C : ℚ) (N : ℕ) : Prop :=
  sufficientLen P C N ∧ ∀ m < N, ¬ sufficientLen P C m

instance (P C : ℚ) (N : ℕ) : Decidable (IsMinSufficientLen P C N) := by
  unfold IsMinSufficientLen; infer_instance

/-- Modelled from the spec: the paired two-sided reading used by the spec's
scenario 2 and the notebook's prose ("the 25th-75th percentiles range"): upper
bound at the larger of `P` and `100-P` with direction upper, lower bound at
the smaller with direction lower, same confidence. -/
def variabilityPaired (sequel : List ℚ) (spec : EstimatorSpec) :
    Bool × Option ℚ × Option ℚ × Option ℚ × Option ℚ :=
  let ph := max spec.percentile (100 - spec.percentile)
  let pl := min spec.percentile (100 - spec.percentile)
  let u := bound sequel ph spec.confidence Direction.upper
  let l := bound sequel pl spec.confidence Direction.lower
  let a : Option ℚ :=
    match u, l with
    | some uv, some lv => some (uv - lv)
    | _, _ => none
  let r := a.map fun v => v / (spec.bounds.high - spec.bounds.low)
  (is_independent sequel spec.bounds, u, l, a, r)

/-- Row of the tutorial dataset: a congestion-control scheme name, a series
date, and the named metric-value columns.  A cell holding `none` models a
missing value (pandas `NaN`). -/
structure Row where
  cc : String
  datetime : String
  vals : List (String × Option ℚ)
deriving DecidableEq, Repr

/-- Embedding of `pandas.Series.unique`: the distinct values in order of
first appearance. -/
def pandasUnique (l : List String) : List String :=
  l.foldl (fun acc d => if d ∈ acc then acc else acc ++ [d]) []

/-- Embedding of `df.where(filter)`: rows failing the filter are replaced by
all-NaN rows, represented as `none`. -/
def dfWhere (rows : List Row) (pred : Row → Bool) : List (Option Row) :=
  rows.map fun r => if pred r then some r else none

/-- A row with no missing value in any column. -/
def rowComplete (r : Row) : Bool := r.vals.all fun c => c.2.isSome

/-- Embedding of `.dropna()`: drops every row containing a missing value; the
all-NaN rows produced by `where` (represented `none`) are always dropped. -/
def dropna (rows : List (Option Row)) : List Row :=
  rows.filterMap fun o => o.bind fun r => if rowComplete r then some r else none

/-- The entries of one named column over a list of rows (present, non-missing
values). -/
def colValues (rows : List Row) (col : String) : List ℚ :=
  rows.filterMap fun r => (r.vals.lookup col).bind id

/-- Embedding of the notebook's `get_metrics`: for each date (in order of
first appearance in the `datetime` column), filter the frame with
`where(cc == scheme and datetime == date).dropna()` and collect the
`<metric>_value` column. -/
def get_metrics (df : List Row) (scheme metric : String) : List (List ℚ) :=
  let dates := pandasUnique (df.map (·.datetime))
  dates.map fun date =>
    let filtered := dropna (dfWhere df fun r => r.cc == scheme && r.datetime == date)
    colValues filtered (metric ++ "_value")

/-- Statement of claim C9's characterisation of `get_metrics`, written from
the claim's words: one entry per distinct datetime, holding the metric values
of exactly the rows matching the scheme and that date. -/
def get_metrics_claimed (df : List Row) (scheme metric : String) : List (List ℚ) :=
  (pandasUnique (df.map (·.datetime))).map fun date =>
    colValues (df.filter fun r => r.cc == scheme && r.datetime == date)
      (metric ++ "_value")

/-- Embedding of the notebook solution's step 1: iterate over the series of
metric values, compute each KPI, and append the KPI value to the accumulator
only when the independence test passed. -/
def solutionsKpiValues (metric_data : List (List ℚ)) (spec : EstimatorSpec) :
    List (Option ℚ) :=
  metric_data.foldl
    (fun acc series =>
      if (kpi series spec).1 then acc ++ [(kpi series spec).2] else acc)
    []

/-- Embedding of the notebook solution's step 2: compute the variability
score and print it, negated exactly when the sequel-level independence test
failed (`if not indep_test_passed: var_score *= -1`). -/
def solutionsPrinted (kpis : List ℚ) (spec : EstimatorSpec) : Option ℚ :=
  let r := variability kpis spec
  let score := r.2.2.2.1
  if r.1 then score else score.map fun v => -v

/-- The tutorial's KPI specification: 25th percentile, 75% confidence,
expected value range [0,120] Mbit/s. -/
def exampleSpec : EstimatorSpec := ⟨25, 75, ⟨0, 120⟩⟩

/-- A dataset row matching scheme `bbr` whose `delay_value` cell is missing
(pandas `NaN`). -/
def badRow : Row := ⟨"bbr", "d1", [("throughput_value", some 1), ("delay_value", none)]⟩

theorem searchRank_eq_none_iff (f : ℕ → ℚ) (c : ℚ) (m : ℕ) :
    searchRank f c m = none ↔ ∀ j < m, ¬ c ≤ f j := by
  induction m with
  | zero => simp [searchRank]
  | succ m ih =>
    unfold searchRank
    cases h : searchRank f c m with
    | some j =>
      constructor
      · intro hx
        exact absurd hx (by simp)
      · intro hall
        have hm : searchRank f c m = none :=
          ih.mpr fun i hi => hall i (by omega)
        rw [h] at hm; exact absurd hm (by simp)
    | none =>
      rw [h] at ih
      constructor
      · intro hnone j hj
        by_cases hjm : j < m
        · exact (ih.mp rfl) j hjm
        · have hjm' : j = m := by omega
          subst hjm'
          intro hc
          simp [hc] at hnone
      · intro hall
        have : ¬ c ≤ f m := hall m (by omega)
        simp [this]

theorem searchRank_eq_some (f : ℕ → ℚ) (c : ℚ) (m j : ℕ)
    (h : searchRank f c m = some j) :
    j < m ∧ c ≤ f j ∧ ∀ i < j, ¬ c ≤ f i := by
  induction m with
  | zero => simp [searchRank] at h
  | succ m ih =>
    unfold searchRank at h
    cases hm : searchRank f c m with
    | some j' =>
      rw [hm] at h
      obtain rfl : j' = j := by simpa using h
      obtain ⟨h1, h2, h3⟩ := ih hm
      exact ⟨by omega, h2, h3⟩
    | none =>
      rw [hm] at h
      by_cases hc : c ≤ f m
      · simp only [hc, if_pos] at h
        obtain rfl : m = j := by simpa using h
        exact ⟨by omega, hc, fun i hi => (searchRank_eq_none_iff f c m).mp hm i hi⟩
      · simp [hc] at h

theorem binomTerm_nonneg (n : ℕ) (p : ℚ) (i : ℕ) (h0 : 0 ≤ p) (h1 : p ≤ 1) :
    0 ≤ binomTerm n p i := by
  unfold binomTerm
  have h1p : (0:ℚ) ≤ 1 - p := by linarith
  positivity

theorem binomTerm_pos (n : ℕ) (p : ℚ) (i : ℕ) (hi : i ≤ n)
    (h0 : 0 < p) (h1 : p < 1) : 0 < binomTerm n p i := by
  unfold binomTerm
  have hc : (0:ℚ) < (n.choose i : ℚ) := by
    exact_mod_cast Nat.choose_pos hi
  have h1p : (0:ℚ) < 1 - p := by linarith
  positivity

theorem binomTerm_total (n : ℕ) (p : ℚ) :
    ∑ i ∈ Finset.range (n + 1), binomTerm n p i = 1 := by
  have h := add_pow p (1 - p) n
  have hsum : ∑ i ∈ Finset.range (n + 1), binomTerm n p i
      = ∑ i ∈ Finset.range (n + 1), p ^ i * (1 - p) ^ (n - i) * (n.choose i : ℚ) := by
    refine Finset.sum_congr rfl fun i _ => ?_
    unfold binomTerm; ring
  rw [hsum, ← h]
  norm_num

theorem binomCdf_mono (n : ℕ) (p : ℚ) (j j' : ℕ) (hj : j ≤ j')
    (h0 : 0 ≤ p) (h1 : p ≤ 1) : binomCdf n p j ≤ binomCdf n p j' := by
  unfold binomCdf
  refine Finset.sum_le_sum_of_subset_of_nonneg
    (Finset.range_subset.mpr (by omega)) fun i _ _ => binomTerm_nonneg n p i h0 h1

theorem binomCdf_last (n : ℕ) (p : ℚ) (hn : 1 ≤ n) :
    binomCdf n p (n - 1) = 1 - p ^ n := by
  obtain ⟨m, rfl⟩ : ∃ m, n = m + 1 := ⟨n - 1, by omega⟩
  have htot := binomTerm_total (m + 1) p
  rw [Finset.sum_range_succ] at htot
  have hlast : binomTerm (m + 1) p (m + 1) = p ^ (m + 1) := by
    unfold binomTerm
    simp [Nat.choose_self]
  rw [hlast] at htot
  unfold binomCdf
  have : m + 1 - 1 = m := by omega
  rw [this]
  linarith

theorem natp_bounds (P : ℚ) (h0 : 0 < P) (h1 : P < 100) :
    1 / 2 ≤ natp P ∧ 0 < natp P ∧ natp P < 1 := by
  unfold natp boundProb naturalDirection
  by_cases h : P ≤ 50 <;> simp [h] <;> constructor <;> first
    | linarith
    | (constructor <;> linarith)

theorem natp_symm (P : ℚ) : natp (100 - P) = natp P := by
  unfold natp boundProb naturalDirection
  rcases lt_trichotomy P 50 with h | h | h
  · rw [if_pos (by linarith : P ≤ 50), if_neg (by linarith : ¬ (100 - P ≤ 50))]
  · subst h; norm_num
  · rw [if_neg (by linarith : ¬ P ≤ 50), if_pos (by linarith : 100 - P ≤ 50)]
    ring_nf

theorem sufficientLen_iff (P C : ℚ) (n : ℕ) (h0 : 0 < P) (h1 : P < 100) :
    sufficientLen P C n ↔ 1 ≤ n ∧ C / 100 ≤ 1 - (natp P) ^ n := by
  obtain ⟨hhalf, hpos, hlt⟩ := natp_bounds P h0 h1
  constructor
  · rintro ⟨j, hj, hcj⟩
    refine ⟨by omega, ?_⟩
    calc C / 100 ≤ binomCdf n (natp P) j := hcj
      _ ≤ binomCdf n (natp P) (n - 1) :=
          binomCdf_mono n _ j (n - 1) (by omega) (le_of_lt hpos) (le_of_lt hlt)
      _ = 1 - (natp P) ^ n := binomCdf_last n _ (by omega)
  · rintro ⟨hn, hc⟩
    exact ⟨n - 1, by omega, by rw [binomCdf_last n _ hn]; exact hc⟩

theorem sufficientLen_mono_len (P C : ℚ) (a b : ℕ) (h0 : 0 < P) (h1 : P < 100)
    (hab : a ≤ b) (h : sufficientLen P C a) : sufficientLen P C b := by
  obtain ⟨hhalf, hpos, hlt⟩ := natp_bounds P h0 h1
  rw [sufficientLen_iff P C a h0 h1] at h
  rw [sufficientLen_iff P C b h0 h1]
  refine ⟨by omega, ?_⟩
  have : (natp P) ^ b ≤ (natp P) ^ a :=
    pow_le_pow_of_le_one (le_of_lt hpos) (le_of_lt hlt) hab
  linarith [h.2]

theorem sufficientLen_anti_conf (P C C' : ℚ) (n : ℕ) (hCC : C ≤ C')
    (h : sufficientLen P C' n) : sufficientLen P C n := by
  obtain ⟨j, hj, hcj⟩ := h
  exact ⟨j, hj, le_trans (by linarith) hcj⟩

theorem bound_eq_none_iff (sample : List ℚ) (P C : ℚ) (dir : Direction) :
    bound sample P C dir = none ↔
      searchRank (binomCdf sample.length (boundProb P dir)) (C / 100)
        sample.length = none := by
  unfold bound
  cases h : searchRank (binomCdf sample.length (boundProb P dir)) (C / 100)
      sample.length with
  | none => simp [h]
  | some j =>
    have hj : j < sample.length := (searchRank_eq_some _ _ _ _ h).1
    have hlen : (sample.insertionSort (· ≤ ·)).length = sample.length :=
      (List.perm_insertionSort _ sample).length_eq
    simp only [h]
    cases dir with
    | upper =>
      refine iff_of_false (fun hx => ?_) (by simp)
      simp only [Option.some_bind] at hx
      rw [List.getElem?_eq_none_iff, hlen] at hx
      omega
    | lower =>
      refine iff_of_false (fun hx => ?_) (by simp)
      simp only [Option.some_bind] at hx
      rw [List.getElem?_eq_none_iff, hlen] at hx
      omega

theorem bound_mem (sample : List ℚ) (P C : ℚ) (dir : Direction) (v : ℚ)
    (h : bound sample P C dir = some v) : v ∈ sample := by
  unfold bound at h
  obtain ⟨j, hs, hg⟩ := Option.bind_eq_some.mp h
  have hmem : v ∈ sample.insertionSort (· ≤ ·) := by
    cases dir with
    | upper => exact List.getElem?_mem hg
    | lower => exact List.getElem?_mem hg
  exact (List.perm_insertionSort _ sample).subset hmem

/-- Key combinatorial fact: when the success probability is at least 1/2 and
the index stays strictly in the lower half of the range, the binomial CDF is
below 1/2 (each low term is dominated by its mirror term, and a positive
middle term is left over). -/
theorem binomCdf_lt_half (n i : ℕ) (p : ℚ) (hp : 1 / 2 ≤ p) (hp1 : p < 1)
    (h : 2 * i + 2 ≤ n) : binomCdf n p i < 1 / 2 := by
  have hp0 : (0:ℚ) < p := by linarith
  have h1p : (0:ℚ) ≤ 1 - p := by linarith
  have hmirror : ∀ k, k ≤ i → binomTerm n p k ≤ binomTerm n p (n - k) := by
    intro k hk
    have hcs : n.choose (n - k) = n.choose k := Nat.choose_symm (by omega)
    have e2 : n - (n - k) = k := by omega
    have e1 : n - k = (n - 2 * k) + k := by omega
    unfold binomTerm
    rw [hcs, e2, e1, pow_add, pow_add]
    have hbase : (0:ℚ) ≤ (n.choose k : ℚ) * p ^ k * (1 - p) ^ k := by positivity
    have hpow : (1 - p) ^ (n - 2 * k) ≤ p ^ (n - 2 * k) :=
      pow_le_pow_left h1p (by linarith) _
    calc (n.choose k : ℚ) * p ^ k * ((1 - p) ^ (n - 2 * k) * (1 - p) ^ k)
        = ((n.choose k : ℚ) * p ^ k * (1 - p) ^ k) * (1 - p) ^ (n - 2 * k) := by
          ring
      _ ≤ ((n.choose k : ℚ) * p ^ k * (1 - p) ^ k) * p ^ (n - 2 * k) :=
          mul_le_mul_of_nonneg_left hpow hbase
      _ = (n.choose k : ℚ) * (p ^ (n - 2 * k) * p ^ k) * (1 - p) ^ k := by ring
  set A := Finset.range (i + 1) with hA
  set B := (Finset.range (i + 1)).image (fun k => n - k) with hB
  have hBsum : ∑ x ∈ B, binomTerm n p x = ∑ k ∈ A, binomTerm n p (n - k) := by
    rw [hB, hA]
    exact Finset.sum_image fun a ha b hb hab => by
      simp only [Finset.mem_range] at ha hb; omega
  have hAB : Disjoint A B := by
    rw [Finset.disjoint_left]
    intro a haA haB
    rw [hA, Finset.mem_range] at haA
    rw [hB, Finset.mem_image] at haB
    obtain ⟨k, hk, hek⟩ := haB
    rw [Finset.mem_range] at hk
    omega
  have hiAB : i + 1 ∉ A ∪ B := by
    rw [Finset.mem_union, hA, hB, Finset.mem_range, Finset.mem_image]
    push_neg
    refine ⟨by omega, fun k hk => ?_⟩
    rw [Finset.mem_range] at hk
    omega
  have hsub2 : insert (i + 1) (A ∪ B) ⊆ Finset.range (n + 1) := by
    intro x hx
    rw [Finset.mem_range]
    rcases Finset.mem_insert.mp hx with rfl | hx
    · omega
    · rcases Finset.mem_union.mp hx with hx | hx
      · rw [hA, Finset.mem_range] at hx; omega
      · rw [hB, Finset.mem_image] at hx
        obtain ⟨k, hk, hek⟩ := hx
        omega
  have hsum_le : ∑ x ∈ insert (i + 1) (A ∪ B), binomTerm n p x ≤ 1 := by
    rw [← binomTerm_total n p]
    exact Finset.sum_le_sum_of_subset_of_nonneg hsub2
      fun x _ _ => binomTerm_nonneg n p x (by linarith) (by linarith)
  rw [Finset.sum_insert hiAB, Finset.sum_union hAB, hBsum] at hsum_le
  have hdom : ∑ k ∈ A, binomTerm n p k ≤ ∑ k ∈ A, binomTerm n p (n - k) :=
    Finset.sum_le_sum fun k hk =>
      hmirror k (by rw [hA, Finset.mem_range] at hk; omega)
  have hmid : 0 < binomTerm n p (i + 1) :=
    binomTerm_pos n p (i + 1) (by omega) hp0 hp1
  unfold binomCdf
  rw [← hA]
  linarith

theorem variability_upper_proj (sequel : List ℚ) (spec : EstimatorSpec) :
    (variability sequel spec).2.1
      = bound sequel (100 - spec.percentile) spec.confidence Direction.upper := rfl

theorem variability_lower_proj (sequel : List ℚ) (spec : EstimatorSpec) :
    (variability sequel spec).2.2.1
      = bound sequel spec.percentile spec.confidence Direction.lower := rfl

/-- C1: for every series and valid spec, the KPI value is the `Undefined`
sentinel (`none`) exactly when the series length is below the minimal
sufficient sample size for the requested (P,C); otherwise it is an element of
the input series (a genuine order statistic), and in particular a series of
length 1 yields `Undefined` whenever more than one sample is required. -/
theorem kpi_undefined_iff (series : List ℚ) (spec : EstimatorSpec) (N : ℕ)
    (hv : validSpec spec)
    (hN : IsMinSufficientLen spec.percentile spec.confidence N) :
    ((kpi series spec).2 = none ↔ series.length < N)
      ∧ (∀ v, (kpi series spec).2 = some v → v ∈ series)
      ∧ (series.length = 1 → 1 < N → (kpi series spec).2 = none) := by
  obtain ⟨hP0, hP1, hC0, hC1, hb⟩ := hv
  have hk2 : (kpi series spec).2
      = bound series spec.percentile spec.confidence
          (naturalDirection spec.percentile) := rfl
  have hnone : (kpi series spec).2 = none
      ↔ ¬ sufficientLen spec.percentile spec.confidence series.length := by
    rw [hk2, bound_eq_none_iff, searchRank_eq_none_iff]
    unfold sufficientLen natp
    constructor
    · rintro hall ⟨j, hj, hcj⟩
      exact hall j hj hcj
    · intro hnot j hj hcj
      exact hnot ⟨j, hj, hcj⟩
  have hfirst : (kpi series spec).2 = none ↔ series.length < N := by
    rw [hnone]
    constructor
    · intro hns
      by_contra hlt
      push_neg at hlt
      exact hns (sufficientLen_mono_len spec.percentile spec.confidence N
        series.length hP0 hP1 hlt hN.1)
    · intro hlt
      exact hN.2 series.length hlt
  refine ⟨hfirst, ?_, ?_⟩
  · intro v hvv
    rw [hk2] at hvv
    exact bound_mem series _ _ _ v hvv
  · intro hlen hN1
    exact hfirst.mpr (by omega)

/-- Witness for C1 at the tutorial spec (25th percentile, 75% confidence):
the minimal sufficient length is 5, and a series of length 3 yields the
`Undefined` sentinel. -/
theorem kpi_undefined_iff_witness :
    validSpec exampleSpec
    ∧ IsMinSufficientLen exampleSpec.percentile exampleSpec.confidence 5
    ∧ (((kpi [(1:ℚ), 2, 3] exampleSpec).2 = none ↔ [(1:ℚ), 2, 3].length < 5)
      ∧ (∀ v, (kpi [(1:ℚ), 2, 3] exampleSpec).2 = some v → v ∈ [(1:ℚ), 2, 3])
      ∧ ([(1:ℚ), 2, 3].length = 1 → 1 < 5 → (kpi [(1:ℚ), 2, 3] exampleSpec).2 = none)) :=
  ⟨by decide, by decide,
    kpi_undefined_iff [(1:ℚ), 2, 3] exampleSpec 5 (by decide) (by decide)⟩

/-- C2 (counterexample): the literal §4.5 variability formula violates the
claimed invariant.  With percentile 25 and confidence 1 (a valid spec) on the
sequel [1,2,3,4,5] both bounds are defined but upper = 2 < 4 = lower; and with
percentile 50, confidence 50 on the non-constant sequel [1,2,3] the two bounds
are defined and equal, contradicting "equality only for constant sequels". -/
theorem variability_invariant_counterexample :
    (validSpec ⟨25, 1, ⟨0, 120⟩⟩
      ∧ (variability [(1:ℚ), 2, 3, 4, 5] ⟨25, 1, ⟨0, 120⟩⟩).2.1 = some 2
      ∧ (variability [(1:ℚ), 2, 3, 4, 5] ⟨25, 1, ⟨0, 120⟩⟩).2.2.1 = some 4
      ∧ ¬ ((4:ℚ) ≤ 2))
    ∧ (validSpec ⟨50, 50, ⟨0, 120⟩⟩
      ∧ (variability [(1:ℚ), 2, 3] ⟨50, 50, ⟨0, 120⟩⟩).2.1 = some 2
      ∧ (variability [(1:ℚ), 2, 3] ⟨50, 50, ⟨0, 120⟩⟩).2.2.1 = some 2
      ∧ ((1:ℚ) ≠ 2)) := by decide

/-- C2 (amended): whenever both variability bounds are defined, the
percentile is at most 50 (the regime in which the spec's formula pairs the
upper bound with the higher percentile) and the confidence is at least 50,
the upper bound is at least the lower bound.  Equality can also occur for
non-constant sequels, when both searches select the same middle order
statistic. -/
theorem variability_upper_ge_lower (sequel : List ℚ) (spec : EstimatorSpec)
    (u l : ℚ) (hv : validSpec spec) (hP : spec.percentile ≤ 50)
    (hC : 50 ≤ spec.confidence)
    (hu : (variability sequel spec).2.1 = some u)
    (hl : (variability sequel spec).2.2.1 = some l) : l ≤ u := by
  obtain ⟨hP0, hP1, hC0, hC1, hb⟩ := hv
  rw [variability_upper_proj] at hu
  rw [variability_lower_proj] at hl
  unfold bound at hu hl
  obtain ⟨j, hsj, hgj⟩ := Option.bind_eq_some.mp hu
  obtain ⟨j2, hsj2, hgj2⟩ := Option.bind_eq_some.mp hl
  have hpe : boundProb (100 - spec.percentile) Direction.upper
      = boundProb spec.percentile Direction.lower := rfl
  rw [hpe] at hsj
  obtain rfl : j = j2 := Option.some.inj (hsj.symm.trans hsj2)
  obtain ⟨hjn, hcj, hmin⟩ := searchRank_eq_some _ _ _ _ hsj
  simp only [Option.some_bind] at hgj hgj2
  have hplow : boundProb spec.percentile Direction.lower
      = (100 - spec.percentile) / 100 := rfl
  have hij : sequel.length - 1 - j ≤ j := by
    by_contra hcon
    push_neg at hcon
    have h2 : 2 * j + 2 ≤ sequel.length := by omega
    have hhalf : binomCdf sequel.length
        (boundProb spec.percentile Direction.lower) j < 1 / 2 := by
      rw [hplow]
      exact binomCdf_lt_half _ j _ (by linarith) (by linarith) h2
    have : (1:ℚ) / 2 ≤ spec.confidence / 100 := by linarith
    linarith
  have hlen : (sequel.insertionSort (· ≤ ·)).length = sequel.length :=
    (List.perm_insertionSort _ sequel).length_eq
  have hsorted : (sequel.insertionSort (· ≤ ·)).Sorted (· ≤ ·) :=
    List.sorted_insertionSort _ sequel
  have hjlt : j < (sequel.insertionSort (· ≤ ·)).length := by omega
  have hilt : sequel.length - 1 - j < (sequel.insertionSort (· ≤ ·)).length := by
    omega
  have hu2 : u = (sequel.insertionSort (· ≤ ·)).get ⟨j, hjlt⟩ := by
    rw [List.getElem?_eq_getElem hjlt] at hgj
    exact (Option.some.inj hgj).symm
  have hl2 : l = (sequel.insertionSort (· ≤ ·)).get ⟨sequel.length - 1 - j, hilt⟩ := by
    rw [List.getElem?_eq_getElem hilt] at hgj2
    exact (Option.some.inj hgj2).symm
  rw [hu2, hl2]
  exact hsorted.rel_get_of_le (Fin.mk_le_mk.mpr hij)

/-- Witness for C2 (amended) at the tutorial sequel [1,2,3,4,5] with
percentile 25, confidence 75: both bounds defined, lower 1 ≤ upper 5. -/
theorem variability_upper_ge_lower_witness :
    validSpec exampleSpec ∧ exampleSpec.percentile ≤ 50
    ∧ (50:ℚ) ≤ exampleSpec.confidence
    ∧ (variability [(1:ℚ), 2, 3, 4, 5] exampleSpec).2.1 = some 5
    ∧ (variability [(1:ℚ), 2, 3, 4, 5] exampleSpec).2.2.1 = some 1
    ∧ (1:ℚ) ≤ 5 :=
  ⟨by decide, by decide, by decide, by decide, by decide,
    variability_upper_ge_lower [(1:ℚ), 2, 3, 4, 5] exampleSpec 5 1
      (by decide) (by decide) (by decide) (by decide) (by decide)⟩

/-- C3: for fixed percentile the minimal sufficient sample size is
monotonically non-decreasing in the confidence level, and for fixed
confidence it is symmetric around percentile 50. -/
theorem minSufficient_mono_symm :
    (∀ (P C C' : ℚ) (N N' : ℕ), 0 < P → P < 100 → 0 < C → 0 < C' → C' < 100 →
      C ≤ C' → IsMinSufficientLen P C N → IsMinSufficientLen P C' N' → N ≤ N')
    ∧ (∀ (P C : ℚ) (N : ℕ),
        IsMinSufficientLen P C N ↔ IsMinSufficientLen (100 - P) C N) := by
  constructor
  · intro P C C' N N' _ _ _ _ _ hCC hN hN'
    by_contra hcon
    push_neg at hcon
    exact hN.2 N' hcon (sufficientLen_anti_conf P C C' N' hCC hN'.1)
  · intro P C N
    have he : ∀ n, sufficientLen (100 - P) C n ↔ sufficientLen P C n := by
      intro n
      unfold sufficientLen
      rw [natp_symm]
    unfold IsMinSufficientLen
    constructor
    · rintro ⟨h1, h2⟩
      exact ⟨(he N).mpr h1, fun m hm hs => h2 m hm ((he m).mp hs)⟩
    · rintro ⟨h1, h2⟩
      exact ⟨(he N).mp h1, fun m hm hs => h2 m hm ((he m).mpr hs)⟩

/-- Witness for C3: at percentile 25 the minimal sufficient size is 5 for
confidence 75 and 9 for confidence 90 (5 ≤ 9), and percentile 75 = 100 - 25
shares the minimal size 5 at confidence 75. -/
theorem minSufficient_mono_symm_witness :
    ((0:ℚ) < 25 ∧ (25:ℚ) < 100 ∧ (0:ℚ) < 75 ∧ (0:ℚ) < 90 ∧ (90:ℚ) < 100
      ∧ (75:ℚ) ≤ 90 ∧ IsMinSufficientLen 25 75 5 ∧ IsMinSufficientLen 25 90 9
      ∧ (5:ℕ) ≤ 9)
    ∧ IsMinSufficientLen (100 - 25) 75 5 :=
  ⟨⟨by decide, by decide, by decide, by decide, by decide, by decide, by decide,
      by decide,
      minSufficient_mono_symm.1 25 75 90 5 9 (by decide) (by decide) (by decide)
        (by decide) (by decide) (by decide) (by decide) (by decide)⟩,
    (minSufficient_mono_symm.2 25 75 5).mp (by decide)⟩

/-- C4: on the tutorial series with KPI spec percentile 25, confidence 75,
bounds [0,120], the independence test passes and the KPI value is 104.68, the
minimum element of the series. -/
theorem scenario1_kpi :
    validSpec exampleSpec
    ∧ kpi [(10507:ℚ)/100, 10504/100, 10468/100, 10492/100, 10508/100] exampleSpec
        = (true, some (10468/100))
    ∧ (∀ x ∈ [(10507:ℚ)/100, 10504/100, 10468/100, 10492/100, 10508/100],
        (10468:ℚ)/100 ≤ x) := by decide

/-- C5 (counterexample): on the five tutorial KPI values with score spec
percentile 75, confidence 75, bounds [0,120], the spec's literal §4.5 formula
(upper at percentile 100-75 = 25 with direction upper, lower at percentile 75
with direction lower) selects the same middle order statistic for both bounds
and yields absolute score 0, not approximately 0.41. -/
theorem scenario2_literal_score_zero :
    validSpec ⟨75, 75, ⟨0, 120⟩⟩
    ∧ variability [(10507:ℚ)/100, 10504/100, 10468/100, 10492/100, 10508/100]
        ⟨75, 75, ⟨0, 120⟩⟩
        = (true, some (10504/100), some (10504/100), some 0, some 0)
    ∧ ¬ ((41:ℚ)/100 - 0 ≤ 1/10) := by decide

/-- C5 (amended): with the paired two-sided reading (upper bound at the
larger of P and 100-P, lower bound at the smaller), the same inputs pass the
independence test and give absolute score 2/5 = 0.40, within 0.01 of the
0.41 Mbit/s printed by the notebook (whose inputs are the unrounded KPI
values). -/
theorem scenario2_paired_score :
    variabilityPaired [(10507:ℚ)/100, 10504/100, 10468/100, 10492/100, 10508/100]
        ⟨75, 75, ⟨0, 120⟩⟩
        = (true, some (10508/100), some (10468/100), some (2/5), some (1/300))
    ∧ ((41:ℚ)/100 - 2/5 ≤ 1/100 ∧ (2:ℚ)/5 - 41/100 ≤ 1/100) := by decide

/-- C6: for every series and valid spec the KPI entry point returns (no
exception) the independence flag and the one-sided bound unmodified; in
particular when the independence test fails the numeric bound is still the
estimator's bound, unaltered, next to the `false` flag. -/
theorem kpi_reports_flag_and_bound (series : List ℚ) (spec : EstimatorSpec)
    (hv : validSpec spec) :
    analysis_kpi series spec = Except.ok (kpi series spec)
    ∧ (kpi series spec).1 = is_independent series spec.bounds
    ∧ (kpi series spec).2
        = bound series spec.percentile spec.confidence
            (naturalDirection spec.percentile)
    ∧ (is_independent series spec.bounds = false →
        kpi series spec
          = (false, bound series spec.percentile spec.confidence
              (naturalDirection spec.percentile))) := by
  refine ⟨?_, rfl, rfl, ?_⟩
  · unfold analysis_kpi
    rw [if_pos hv]
  · intro hfail
    unfold kpi
    rw [hfail]

/-- Witness for C6: the constant series [5,5,5] fails the independence test
and the KPI still carries the estimator's bound next to the `false` flag. -/
theorem kpi_reports_flag_and_bound_witness :
    validSpec exampleSpec
    ∧ is_independent [(5:ℚ), 5, 5] exampleSpec.bounds = false
    ∧ kpi [(5:ℚ), 5, 5] exampleSpec
        = (false, bound [(5:ℚ), 5, 5] exampleSpec.percentile exampleSpec.confidence
            (naturalDirection exampleSpec.percentile)) :=
  ⟨by decide, by decide,
    (kpi_reports_flag_and_bound [(5:ℚ), 5, 5] exampleSpec (by decide)).2.2.2
      (by decide)⟩

/-- C7: an invalid specification (percentile or confidence outside (0,100),
or degenerate bounds) makes both entry points fail immediately with a
parameter error; no bound is computed and nothing is silently corrected. -/
theorem invalid_spec_rejected (x y : List ℚ) (spec : EstimatorSpec)
    (hv : ¬ validSpec spec) :
    analysis_kpi x spec = Except.error "InvalidParameter"
    ∧ analysis_variability y spec = Except.error "InvalidParameter" := by
  unfold analysis_kpi analysis_variability
  rw [if_neg hv, if_neg hv]
  exact ⟨rfl, rfl⟩

/-- Witness for C7 at the out-of-range percentile 120. -/
theorem invalid_spec_rejected_witness :
    ¬ validSpec ⟨120, 75, ⟨0, 120⟩⟩
    ∧ analysis_kpi [] ⟨120, 75, ⟨0, 120⟩⟩ = Except.error "InvalidParameter"
    ∧ analysis_variability [] ⟨120, 75, ⟨0, 120⟩⟩
        = Except.error "InvalidParameter" :=
  ⟨by decide, (invalid_spec_rejected [] [] ⟨120, 75, ⟨0, 120⟩⟩ (by decide)).1,
    (invalid_spec_rejected [] [] ⟨120, 75, ⟨0, 120⟩⟩ (by decide)).2⟩

theorem short_sample_den_zero (x : List ℚ) (h : x.length < 2) :
    acDen x (sampleMean x) = 0 := by
  match x, h with
  | [], _ => simp [acDen]
  | [a], _ => simp [acDen, sampleMean]

/-- C8: a sample too short for any autocorrelation lag to be computable
(fewer than two points) always fails the independence test — independence is
never assumed by default. -/
theorem short_sample_not_independent (x : List ℚ) (b : Bounds)
    (h : x.length < 2) : is_independent x b = false := by
  have hA : ∀ k, acWithin x k = false := by
    intro k
    unfold acWithin
    rw [short_sample_den_zero x h]
    simp
  unfold is_independent
  have hfilter : (((List.range (max 1 (x.length / 4))).map (· + 1)).filter
      fun k => acWithin x k) = [] := by
    rw [List.filter_eq_nil]
    intro k _
    simp [hA k]
  rw [hfilter]
  simp

/-- Witness for C8 at the singleton sample [42]. -/
theorem short_sample_not_independent_witness :
    [(42:ℚ)].length < 2 ∧ is_independent [(42:ℚ)] ⟨0, 120⟩ = false :=
  ⟨by decide, short_sample_not_independent [(42:ℚ)] ⟨0, 120⟩ (by decide)⟩

theorem dropna_dfWhere (rows : List Row) (pred : Row → Bool) :
    dropna (dfWhere rows pred) = (rows.filter pred).filter rowComplete := by
  induction rows with
  | nil => rfl
  | cons r rs ih =>
    unfold dropna dfWhere at ih ⊢
    simp only [List.map_cons, List.filterMap_cons, List.filter_cons]
    by_cases hp : pred r
    · by_cases hc : rowComplete r
      · simp [hp, hc, ih]
      · simp [hp, hc, ih]
    · simp [hp, ih]

/-- C9 (counterexample): `get_metrics` does not keep exactly the rows
matching the scheme and the date — `where(...).dropna()` also drops matching
rows that carry a missing value (NaN) in any other column.  On a frame whose
single `bbr` row has a missing `delay_value`, the code returns an empty
series where the claimed characterisation returns the throughput value. -/
theorem get_metrics_nan_counterexample :
    get_metrics [badRow] "bbr" "throughput" = [[]]
    ∧ get_metrics_claimed [badRow] "bbr" "throughput" = [[1]]
    ∧ get_metrics [badRow] "bbr" "throughput"
        ≠ get_metrics_claimed [badRow] "bbr" "throughput" := by decide

/-- C9 (amended): `get_metrics` returns one entry per distinct datetime in
order of first appearance, and each entry lists the `<metric>_value` column
of exactly those rows that match the scheme and the date and contain no
missing value in any column (the extra exclusion performed by `dropna`). -/
theorem get_metrics_characterization (df : List Row) (scheme metric : String) :
    get_metrics df scheme metric
      = (pandasUnique (df.map (·.datetime))).map fun date =>
          colValues
            ((df.filter fun r => r.cc == scheme && r.datetime == date).filter
              rowComplete)
            (metric ++ "_value") := by
  unfold get_metrics
  simp only [dropna_dfWhere]

/-- C10: the notebook solution appends a KPI value to the sequel only when
that series passed the independence test (the collected list is exactly the
KPI values of the passing series, in order), and the printed variability
score equals the computed score when the sequel-level independence test
passes and its negation when it fails. -/
theorem solutions_glue (metric_data : List (List ℚ)) (kpis : List ℚ)
    (spec : EstimatorSpec) :
    solutionsKpiValues metric_data spec
      = ((metric_data.filter fun s => (kpi s spec).1).map fun s => (kpi s spec).2)
    ∧ ((variability kpis spec).1 = true →
        solutionsPrinted kpis spec = (variability kpis spec).2.2.2.1)
    ∧ ((variability kpis spec).1 = false →
        solutionsPrinted kpis spec
          = ((variability kpis spec).2.2.2.1).map fun v => -v) := by
  refine ⟨?_, ?_, ?_⟩
  · have gen : ∀ acc, metric_data.foldl
        (fun acc series =>
          if (kpi series spec).1 then acc ++ [(kpi series spec).2] else acc) acc
        = acc ++ ((metric_data.filter fun s => (kpi s spec).1).map
            fun s => (kpi s spec).2) := by
      induction metric_data with
      | nil => intro acc; simp
      | cons s ss ih =>
        intro acc
        simp only [List.foldl_cons, List.filter_cons]
        by_cases hs : (kpi s spec).1
        · simp [hs, ih]
        · simp [hs, ih]
    unfold solutionsKpiValues
    simpa using gen []
  · intro hpass
    simp [solutionsPrinted, hpass]
  · intro hfail
    simp [solutionsPrinted, hfail]

/-- Witness for C10 on a sequel failing the independence test (constant
values): the printed score is the negated computed score. -/
theorem solutions_glue_witness :
    (variability [(5:ℚ), 5, 5] exampleSpec).1 = false
    ∧ solutionsPrinted [(5:ℚ), 5, 5] exampleSpec
        = ((variability [(5:ℚ), 5, 5] exampleSpec).2.2.2.1).map fun v => -v :=
  ⟨by decide,
    (solutions_glue [] [(5:ℚ), 5, 5] exampleSpec).2.2 (by decide)⟩

end TriScale
